import Mathlib

/-!
Verification of the repository-lifecycle CI scripts: a shallow embedding of
the reconciliation logic (repo / mirror find-or-create, merge-request comment
upsert), the config resolvers, the masked-credential URL builders, the
paginated resource locator and the helm-diff comment builder, together with
theorems settling the specified properties.

Strings from the Python sources are modelled as lists of characters
(`Str := List Char`), so Python's `s[:n]`, `len`, `+` and `in` become
`List.take`, `List.length`, `++` and substring containment.
-/

abbrev Str : Type := List Char

/-- Boolean substring test: `containsSub hay needle` is Python's
`needle in hay` for strings (true when `needle` occurs contiguously in
`hay`, and always true for the empty needle). -/
def containsSub (hay needle : Str) : Bool :=
  match hay with
  | [] => needle.isEmpty
  | c :: t => needle.isPrefixOf (c :: t) || containsSub t needle

theorem containsSub_iff (hay needle : Str) :
    containsSub hay needle = true ↔ ∃ s t, hay = s ++ needle ++ t := by
  induction hay with
  | nil =>
    simp only [containsSub, List.isEmpty_iff]
    constructor
    · intro h; exact ⟨[], [], by simp [h]⟩
    · rintro ⟨s, t, h⟩
      rcases List.append_eq_nil.mp h.symm with ⟨h1, h2⟩
      rcases List.append_eq_nil.mp h1 with ⟨_, h4⟩
      exact h4
  | cons c tl ih =>
    simp only [containsSub, Bool.or_eq_true, ih]
    constructor
    · rintro (hp | ⟨s, t, h⟩)
      · rcases ( List.isPrefixOf_iff_prefix).mp hp with ⟨t, ht⟩
        exact ⟨[], t, by simpa using ht.symm⟩
      · exact ⟨c :: s, t, by simp [h]⟩
    · rintro ⟨s, t, h⟩
      match s, h with
      | [], h =>
        left
        exact ( List.isPrefixOf_iff_prefix).mpr ⟨t, by simpa using h.symm⟩
      | s₀ :: s', h =>
        right
        refine ⟨s', t, ?_⟩
        have h' := (List.cons_eq_cons.mp h).2
        simpa using h'

theorem containsSub_of_take (needle rest : Str) :
    containsSub (needle ++ rest) needle = true :=
  (containsSub_iff _ _).mpr ⟨[], rest, rfl⟩

/-! ## Config resolvers (`set_var_conf` / `set_var_env`)

`set_var_conf` transcribes

    ret = var
    if key in config:
        ret = config[key]
    return ret

and `set_var_env` transcribes

    ret = var
    if var is None:
        ret = os.environ[env]
    return ret

where a missing environment key raises `KeyError`. -/

inductive KeyErr : Type where
  | keyError (name : String)
deriving DecidableEq

def set_var_conf {α : Type} (var : α) (key : String) (config : List (String × α)) : α :=
  match config.lookup key with
  | some v => v
  | none => var

def set_var_env (var : Option String) (environ : List (String × String))
    (env : String) : Except KeyErr String :=
  match var with
  | some v => Except.ok v
  | none =>
    match environ.lookup env with
    | some v => Except.ok v
    | none => Except.error (KeyErr.keyError env)

/-! ## Masked-credential URL builders

From `gitlab-repo.py`:

    self.gh_r_url_final = f"https://{gh_user}:{gh_pass}@{domain}/{org_name}/{self.github_repo_name}.git"
    self.gh_r_url_mask  = f"https://*****:*****@{domain}/{org_name}/{self.github_repo_name}.git"

with `domain = "github.com"`.  Both are built in the same scope from the same
inputs; the mask's f-string never interpolates the credentials. -/

def gh_r_url_final (gh_user gh_pass org_name github_repo_name : Str) : Str :=
  "https://".toList ++ gh_user ++ ":".toList ++ gh_pass ++ "@".toList ++
    "github.com".toList ++ "/".toList ++ org_name ++ "/".toList ++
    github_repo_name ++ ".git".toList

def gh_r_url_mask (_gh_user _gh_pass org_name github_repo_name : Str) : Str :=
  "https://*****:*****@".toList ++ "github.com".toList ++ "/".toList ++
    org_name ++ "/".toList ++ github_repo_name ++ ".git".toList

/-! ## Resource locator (`get_repo`) and mirror locator (`get_mirror`)

`get_repo` transcribes

    for project in self.gl.projects.list(get_all=True):
        if project.name == name:
            return project
    return None

`get_all=True` makes the SDK walk every page of the listing, so the iterated
sequence is the concatenation of all pages. -/

structure Project where
  name : String
deriving DecidableEq

def projectsListAll (pages : List (List Project)) : List Project :=
  pages.flatten

def get_repo_scan (name : String) : List Project → Option Project
  | [] => none
  | p :: ps => if p.name = name then some p else get_repo_scan name ps

def get_repo (pages : List (List Project)) (name : String) : Option Project :=
  get_repo_scan name (projectsListAll pages)

/-- `get_mirror` transcribes

    for mirror in repo.remote_mirrors.list(get_all=True):
        if mirror.url == self.gh_r_url_mask:
            return mirror
    return None

the comparison target being the instance's masked URL. -/
structure Mirror where
  url : Str
deriving DecidableEq

def get_mirror (mirrors : List Mirror) (gh_user gh_pass org_name github_repo_name : Str) :
    Option Mirror :=
  match mirrors with
  | [] => none
  | m :: ms =>
    if m.url = gh_r_url_mask gh_user gh_pass org_name github_repo_name then some m
    else get_mirror ms gh_user gh_pass org_name github_repo_name

/-! ## Reconciler runs

`gitlabExec` models the remote-call trace of `GitLab.exec` in
`gitlab-repo.py` (lines 109-139): look the repository up, create it when the
guard `(repo is None and self.gl_c_repo) and not self.dry_run` holds, then
look the mirror up on the repository handle (when one exists) and create it
when `((repo is not None and mirror is None) and self.gl_c_mirr) and not
self.dry_run` holds.  A freshly created repository has no mirrors, so the
mirror lookup on it yields `None`; on a pre-existing repository it yields
`mirrorOnFound`.

`githubExec` models `GitLab.exec` in `github-repo.py` (lines 93-118): look
the repository up, create it when `(repo is None and self.gh_c_repo) and not
self.dry_run` holds, then unconditionally run `repo.get_branch("main")` and
`b.edit_protection(...)`.  When `repo` is still `None` at that point the
attribute access raises (`AttributeError` on `NoneType`), which aborts the
run; the trace records the calls issued before the raise. -/

inductive GlAction : Type where
  | getRepo
  | createRepo
  | getMirror
  | createMirror
deriving DecidableEq

inductive GhAction : Type where
  | getOrg
  | getRepo
  | createRepo
  | getBranch
  | editProtection
deriving DecidableEq

inductive ExecErr : Type where
  | noneAttribute
deriving DecidableEq

def gitlabExec (found : Option Project) (mirrorOnFound : Option Mirror)
    (gl_c_repo gl_c_mirr dry_run : Bool) : List GlAction :=
  match found with
  | none =>
    if gl_c_repo && !dry_run then
      [GlAction.getRepo, GlAction.createRepo, GlAction.getMirror] ++
        (if gl_c_mirr && !dry_run then [GlAction.createMirror] else [])
    else
      [GlAction.getRepo]
  | some _ =>
    [GlAction.getRepo, GlAction.getMirror] ++
      (if mirrorOnFound.isNone && gl_c_mirr && !dry_run then [GlAction.createMirror]
       else [])

def githubExec (found : Option Project) (gh_c_repo dry_run : Bool) :
    List GhAction × Option ExecErr :=
  match found with
  | none =>
    if gh_c_repo && !dry_run then
      ([GhAction.getOrg, GhAction.getRepo, GhAction.createRepo,
        GhAction.getBranch, GhAction.editProtection], none)
    else
      ([GhAction.getOrg, GhAction.getRepo], some ExecErr.noneAttribute)
  | some _ =>
    ([GhAction.getOrg, GhAction.getRepo, GhAction.getBranch,
      GhAction.editProtection], none)

def glMutating : GlAction → Bool
  | GlAction.createRepo => true
  | GlAction.createMirror => true
  | _ => false

def ghMutating : GhAction → Bool
  | GhAction.createRepo => true
  | GhAction.editProtection => true
  | _ => false

/-! ## Merge-request comment upsert (`mr_comment.py`)

The remote thread is the list of notes of the first open merge request whose
source branch is the current branch.  `World` injects the outcomes of the
HTTP calls: `mrs` is the JSON answer of the merge-request query (a list of
IIDs, first one used), `mrLookupFails` / `listNotesFails` / `createFails` /
`updateFails` make the corresponding `requests` call raise
`RequestException`.  `NotesState` is the thread: its notes and the id the
service would give the next created note. -/

structure Note : Type where
  id : Nat
  body : Str
deriving DecidableEq

structure NotesState : Type where
  notes : List Note
  nextId : Nat
deriving DecidableEq

structure World : Type where
  mrs : List Nat
  mrLookupFails : Bool
  listNotesFails : Bool
  createFails : Bool
  updateFails : Bool
deriving DecidableEq

/-- The hidden identifier tag: `f"<!-- {identifier} -->"`. -/
def marker (identifier : Str) : Str :=
  "<!-- ".toList ++ identifier ++ " -->".toList

/-- `f"<!-- {identifier} -->" in note.get('body', '')`. -/
def hasMarker (identifier : Str) (n : Note) : Bool :=
  containsSub n.body (marker identifier)

/-- `_get_mr_iid`: `None` on a lookup error or when no open merge request
matches; otherwise the first result's `iid`. -/
def get_mr_iid (w : World) : Option Nat :=
  if w.mrLookupFails then none else w.mrs.head?

/-- `post_comment`: fails (returns `False`) when no merge request was found
or the POST raises; otherwise the note is appended to the thread. -/
def post_comment (w : World) (st : NotesState) (comment : Str) : Bool × NotesState :=
  match get_mr_iid w with
  | none => (false, st)
  | some _ =>
    if w.createFails then (false, st)
    else (true, ⟨st.notes ++ [⟨st.nextId, comment⟩], st.nextId + 1⟩)

/-- `_find_existing_note`: `None` when no merge request was found, when the
GET raises (the exception is caught and downgraded to a warning), or when no
note's body contains the marker; otherwise the first matching note's id. -/
def find_existing_note (w : World) (st : NotesState) (identifier : Str) : Option Nat :=
  match get_mr_iid w with
  | none => none
  | some _ =>
    if w.listNotesFails then none
    else (st.notes.find? (hasMarker identifier)).map Note.id

/-- `note if note.id == nid gets the new body` — the effect of the PUT on
`/notes/{note_id}`, which replaces the whole body. -/
def replaceNote (nid : Nat) (b : Str) (n : Note) : Note :=
  if n.id = nid then ⟨n.id, b⟩ else n

/-- `_update_note`: fails when no merge request was found or the PUT raises;
otherwise the targeted note's body is overwritten. -/
def update_note (w : World) (st : NotesState) (nid : Nat) (comment : Str) :
    Bool × NotesState :=
  match get_mr_iid w with
  | none => (false, st)
  | some _ =>
    if w.updateFails then (false, st)
    else (true, ⟨st.notes.map (replaceNote nid comment), st.nextId⟩)

/-- `update_or_create_comment`: prepend the marker line, then dispatch on
`if existing_note_id:` — a Python *truthiness* test, under which both `None`
and a note id equal to `0` are falsy and route to creation; only a nonzero
found id is updated in place. -/
def update_or_create_comment (w : World) (st : NotesState)
    (comment identifier : Str) : Bool × NotesState :=
  let comment_with_id := marker identifier ++ ('\n' :: comment)
  match find_existing_note w st identifier with
  | some nid =>
    if nid = 0 then post_comment w st comment_with_id
    else update_note w st nid comment_with_id
  | none => post_comment w st comment_with_id

/-! ## `main` of `mr_comment.py` (regular comment with an identifier)

`GitLabMRCommenter.__init__` raises `ValueError` when any required
environment variable is unset or empty (Python truthiness); `main` catches
every exception and exits 1, and otherwise exits 0 exactly when the posting
helper returned `True`. -/

structure EnvVars : Type where
  gitlab_api_url : Option String
  ci_api_v4_url : Option String
  ci_project_id : Option String
  ci_commit_ref_name : Option String
  renovate_token : Option String
deriving DecidableEq

def truthy : Option String → Bool
  | none => false
  | some s => !(s == "")

/-- `os.environ.get('GITLAB_API_URL', os.environ.get('CI_API_V4_URL'))`. -/
def api_url (e : EnvVars) : Option String :=
  match e.gitlab_api_url with
  | some v => some v
  | none => e.ci_api_v4_url

/-- `all(required_vars)` over api url, project id, ref name and token. -/
def commenter_ok (e : EnvVars) : Bool :=
  truthy (api_url e) && truthy e.ci_project_id &&
    truthy e.ci_commit_ref_name && truthy e.renovate_token

/-- Exit code of `main` on the regular-comment path with `--identifier`:
1 when the commenter's constructor raises, else 0 iff
`update_or_create_comment` succeeded. -/
def main_exit (e : EnvVars) (w : World) (st : NotesState)
    (comment identifier : Str) : Nat :=
  if commenter_ok e = false then 1
  else if (update_or_create_comment w st comment identifier).1 then 0 else 1

/-! ## Helm-diff comment builder (`create_helm_diff_comment`)

The fixed template fragments are named so that length accounting stays
readable; each is the literal from the Python f-strings. -/

def helmNoDiffA : Str :=
  "## 🎯 Helm Chart Diff Results\n\n✅ **No differences found** between `main` and `".toList

def helmNoDiffB : Str :=
  "` branches.\n\nThe Helm chart templates are identical - no resources will be changed by this merge request.".toList

def truncNoteA : Str :=
  "\n\n... (diff truncated - total size: ".toList

def truncNoteB : Str :=
  " characters)\n📎 **Full diff available in pipeline artifacts**".toList

def helmHeadA : Str :=
  "## 🎯 Helm Chart Diff Results\n\n📊 **Changes detected** between `main` and `".toList

def helmHeadB : Str :=
  "` branches:\n- **".toList

def helmHeadC : Str :=
  "** lines added\n- **".toList

def helmHeadD : Str :=
  "** lines removed\n\n<details>\n<summary>📋 Click to view the diff</summary>\n\n```diff\n".toList

def helmFootA : Str :=
  "\n```\n\n</details>\n\n💡 **Review the changes above** to understand the impact on your Kubernetes resources.\n🔗 [View full pipeline logs](".toList

def helmFootB : Str :=
  ") | 📎 [Download diff artifact](".toList

def helmFootC : Str :=
  ")".toList

/-- The artifact download URL interpolated from the pipeline URL and the
job id. -/
def helmArtifactUrl (pipeline_url job_id : Str) : Str :=
  pipeline_url ++ "/-/jobs/".toList ++ job_id ++ "/artifacts/download".toList

/-- The display form of the diff: truncated to `max_diff_size` characters
with the truncation note when `len(diff_content) > max_diff_size`, the diff
itself otherwise. -/
def helmDiffDisplay (diff_content : Str) (max_diff_size : Nat) : Str :=
  if max_diff_size < diff_content.length then
    diff_content.take max_diff_size ++ truncNoteA ++
      (toString diff_content.length).toList ++ truncNoteB
  else diff_content

/-- `create_helm_diff_comment` (mr_comment.py lines 243-289); the early
return fires when `added_lines == 0 and removed_lines == 0`, ignoring the
diff content entirely. -/
def create_helm_diff_comment (added_lines removed_lines : Nat)
    (diff_content branch_name pipeline_url job_id : Str)
    (max_diff_size : Nat) : Str :=
  if added_lines = 0 ∧ removed_lines = 0 then
    helmNoDiffA ++ branch_name ++ helmNoDiffB
  else
    helmHeadA ++ branch_name ++ helmHeadB ++ (toString added_lines).toList ++
      helmHeadC ++ (toString removed_lines).toList ++ helmHeadD ++
      helmDiffDisplay diff_content max_diff_size ++ helmFootA ++
      pipeline_url ++ helmFootB ++ helmArtifactUrl pipeline_url job_id ++
      helmFootC

/-- Every character of the built comment other than the (possibly truncated)
diff display: the template fragments, the interpolated header fields and the
artifact link.  `totalLen` is `len(diff_content)`, whose decimal rendering
appears inside the truncation note. -/
def helmOverhead (added_lines removed_lines : Nat)
    (branch_name pipeline_url job_id : Str) (totalLen : Nat) : Nat :=
  helmHeadA.length + branch_name.length + helmHeadB.length +
    (toString added_lines).toList.length + helmHeadC.length +
    (toString removed_lines).toList.length + helmHeadD.length +
    truncNoteA.length + (toString totalLen).toList.length + truncNoteB.length +
    helmFootA.length + pipeline_url.length + helmFootB.length +
    (helmArtifactUrl pipeline_url job_id).length + helmFootC.length

/-! ## Theorems -/

/-- C1: the reconcile decision is a pure function of
(found, create_enabled, dry_run) with "exists" taking priority: a found
resource is never re-created under any flag combination, and a create call
is issued exactly when the resource is absent, creation is enabled and
dry-run is off — for the repository reconciliation of both scripts, and for
the mirror reconciliation once its locator has run on a found repository. -/
theorem reconcile_create_iff :
    ∀ (found foundG : Option Project) (p : Project) (mf : Option Mirror)
      (cR cM dr cG drG : Bool),
    (GlAction.createRepo ∈ gitlabExec found mf cR cM dr ↔
      found = none ∧ cR = true ∧ dr = false) ∧
    (GhAction.createRepo ∈ (githubExec foundG cG drG).1 ↔
      foundG = none ∧ cG = true ∧ drG = false) ∧
    (GlAction.createMirror ∈ gitlabExec (some p) mf cR cM dr ↔
      mf = none ∧ cM = true ∧ dr = false) := by
  intro found foundG p mf cR cM dr cG drG
  refine ⟨?_, ?_, ?_⟩
  · cases found <;> cases mf <;> cases cR <;> cases cM <;> cases dr <;>
      simp [gitlabExec]
  · cases foundG <;> cases cG <;> cases drG <;> simp [githubExec]
  · cases mf <;> cases cR <;> cases cM <;> cases dr <;> simp [gitlabExec]

/-- C9: when the GitHub lookup returns absent and no creation happens
(dry-run on, or creation disabled), `exec` dereferences the `None`
repository handle at the branch-protection step and raises there — and that
is exactly the precondition for the error; in the error case only the two
read calls were issued. -/
theorem branch_protection_none_deref :
    ∀ (found : Option Project) (c dr : Bool),
    ((githubExec found c dr).2 = some ExecErr.noneAttribute ↔
      found = none ∧ (dr = true ∨ c = false)) ∧
    githubExec none c true =
      ([GhAction.getOrg, GhAction.getRepo], some ExecErr.noneAttribute) := by
  intro found c dr
  constructor
  · cases found <;> cases c <;> cases dr <;> simp [githubExec]
  · cases c <;> simp [githubExec]

/-- C4 counterexample: under dry_run=true with the GitHub repository found,
the run still issues the mutating branch-protection edit, so dry-run does
not suppress every mutating remote call. -/
theorem dry_run_mutation_cex :
    GhAction.editProtection ∈ (githubExec (some ⟨"svc-a"⟩) true true).1 ∧
    ghMutating GhAction.editProtection = true := by
  decide

/-- C4 amended: under dry_run=true no create call (repository or mirror) is
issued by either script, and the only mutating call the GitHub run can
issue is the unguarded branch-protection edit. -/
theorem dry_run_no_creates :
    ∀ (found foundG : Option Project) (mf : Option Mirror) (cR cM cG : Bool),
    (∀ a, a ∈ gitlabExec found mf cR cM true → glMutating a = false) ∧
    GhAction.createRepo ∉ (githubExec foundG cG true).1 ∧
    (∀ a, a ∈ (githubExec foundG cG true).1 → ghMutating a = true →
      a = GhAction.editProtection) := by
  intro found foundG mf cR cM cG
  refine ⟨?_, ?_, ?_⟩
  · intro a ha
    cases found with
    | none =>
      simp [gitlabExec] at ha
      simp [ha, glMutating]
    | some _ =>
      simp [gitlabExec] at ha
      rcases ha with h | h <;> simp [h, glMutating]
  · cases foundG <;> simp [githubExec]
  · intro a ha hm
    cases foundG with
    | none =>
      simp [githubExec] at ha
      rcases ha with h | h <;> subst h <;> simp [ghMutating] at hm
    | some _ =>
      simp [githubExec] at ha
      rcases ha with h | h | h | h <;> subst h <;>
        first
        | rfl
        | simp [ghMutating] at hm

/-- Witness for the amended C4 theorem at a concrete dry-run trace. -/
theorem dry_run_no_creates_witness :
    glMutating GlAction.getRepo = false :=
  (dry_run_no_creates none none none false false false).1 GlAction.getRepo
    (by decide)

/-- C10: the mirror locator compares each listed mirror against the masked
display URL (fixed asterisk credential segment), never the credentialed
URL, so two runs differing only in the GitHub user or password obtain the
same lookup result. -/
theorem mirror_lookup_credential_independent :
    ∀ (ms : List Mirror) (u1 p1 u2 p2 o r : Str),
    get_mirror ms u1 p1 o r = get_mirror ms u2 p2 o r ∧
    get_mirror ms u1 p1 o r =
      ms.find? (fun m => m.url == gh_r_url_mask u1 p1 o r) := by
  intro ms u1 p1 u2 p2 o r
  induction ms with
  | nil => exact ⟨rfl, rfl⟩
  | cons m t ih =>
    constructor
    · show (if m.url = gh_r_url_mask u1 p1 o r then some m
          else get_mirror t u1 p1 o r) =
        (if m.url = gh_r_url_mask u1 p1 o r then some m
          else get_mirror t u2 p2 o r)
      split
      · rfl
      · exact ih.1
    · show (if m.url = gh_r_url_mask u1 p1 o r then some m
          else get_mirror t u1 p1 o r) =
        List.find? (fun x => x.url == gh_r_url_mask u1 p1 o r) (m :: t)
      rw [List.find?_cons]
      by_cases h : m.url = gh_r_url_mask u1 p1 o r
      · simp [h]
      · have hb : (m.url == gh_r_url_mask u1 p1 o r) = false := by
          simpa using h
        rw [if_neg h, ih.2, hb]

/-- C5 counterexample: with password `"github"` the masked URL does contain
the real secret as a substring (it occurs in the fixed host part), so the
unconditional "never contains the real secret" fails. -/
theorem mask_contains_secret_cex :
    containsSub
      (gh_r_url_mask ("u".toList) ("github".toList) ("o".toList) ("r".toList))
      ("github".toList) = true := by
  decide

/-- C5 amended: the masked URL is built without the credentials (it is
identical for every user/password pair), each credential component is
replaced by the fixed literal `*****`, and the masked and real URLs share
the scheme and the entire host-and-path segment after the credential block;
the masked URL can therefore contain the secret only when the secret
already occurs in that credential-free skeleton. -/
theorem masked_url_structure :
    ∀ (u p u' p' o r : Str),
    gh_r_url_mask u p o r = gh_r_url_mask u' p' o r ∧
    ∃ tail,
      gh_r_url_final u p o r =
        "https://".toList ++ (u ++ ":".toList ++ p) ++ "@".toList ++ tail ∧
      gh_r_url_mask u p o r =
        "https://".toList ++
          ("*****".toList ++ ":".toList ++ "*****".toList) ++ "@".toList ++
          tail := by
  intro u p u' p' o r
  refine ⟨rfl, ⟨"github.com".toList ++ "/".toList ++ o ++ "/".toList ++
    r ++ ".git".toList, ?_, ?_⟩⟩
  · simp [gh_r_url_final]
  · have hlit : ("https://*****:*****@".toList : Str) =
        "https://".toList ++ ("*****".toList ++ ":".toList ++
          "*****".toList) ++ "@".toList := by decide
    simp [gh_r_url_mask, hlit]

/-- C3 counterexample: a non-absent explicit argument IS overridden by a
config-file key — `set_var_conf` prefers the config value whenever the key
is present. -/
theorem set_var_conf_overrides_cex :
    set_var_conf "explicit" "gitlab_create_repo"
        [("gitlab_create_repo", "from-config")] = "from-config" ∧
    ("explicit" : String) ≠ "from-config" := by
  constructor
  · rfl
  · decide

/-- C3 amended: the two resolvers implement config-key-over-explicit and
explicit-over-environment precedence: `set_var_conf` returns the config
value when the key is present and the explicit value otherwise, while
`set_var_env` returns the explicit value when it is not `None` and
otherwise reads the environment variable, raising `KeyError` when it is
unset. -/
theorem config_resolution_order :
    ∀ (α : Type) (var : α) (key : String) (config : List (String × α)) (v : α)
      (evar : String) (environ : List (String × String)) (env : String)
      (w : String),
    (config.lookup key = some v → set_var_conf var key config = v) ∧
    (config.lookup key = none → set_var_conf var key config = var) ∧
    set_var_env (some evar) environ env = Except.ok evar ∧
    (environ.lookup env = some w → set_var_env none environ env = Except.ok w) ∧
    (environ.lookup env = none →
      set_var_env none environ env = Except.error (KeyErr.keyError env)) := by
  intro α var key config v evar environ env w
  refine ⟨?_, ?_, rfl, ?_, ?_⟩
  · intro h; simp [set_var_conf, h]
  · intro h; simp [set_var_conf, h]
  · intro h; simp [set_var_env, h]
  · intro h; simp [set_var_env, h]

/-- Witness for the amended C3 theorem at concrete lookups. -/
theorem config_resolution_order_witness :
    set_var_conf 1 "gitlab_create_repo" [("gitlab_create_repo", 2)] = 2 :=
  (config_resolution_order Nat 1 "gitlab_create_repo"
    [("gitlab_create_repo", 2)] 2 "" [] "" "").1 (by decide)

/-- The repository-listing loop is `find?` over the concatenated pages. -/
theorem get_repo_scan_eq (name : String) (l : List Project) :
    get_repo_scan name l = l.find? (fun p => p.name == name) := by
  induction l with
  | nil => rfl
  | cons p ps ih =>
    rw [List.find?_cons]
    by_cases h : p.name = name
    · have hb : (p.name == name) = true := by simpa using h
      rw [hb]
      simp [get_repo_scan, h]
    · have hb : (p.name == name) = false := by simpa using h
      rw [hb]
      simp [get_repo_scan, h, ih]

/-- C6: the locator walks the full paginated listing: whenever the target
occurs on any page (in particular the last one) it returns the first
exact-name match in listing order, and it returns `none` — not an error —
when no page holds a match; any returned project bears the requested name
and comes from the listing. -/
theorem locator_exhaustive :
    ∀ (pages : List (List Project)) (name : String),
    (∀ l₁ (p : Project) l₂, projectsListAll pages = l₁ ++ p :: l₂ →
      p.name = name → (∀ q ∈ l₁, q.name ≠ name) →
      get_repo pages name = some p) ∧
    ((∀ p ∈ projectsListAll pages, p.name ≠ name) →
      get_repo pages name = none) ∧
    (∀ r, get_repo pages name = some r →
      r.name = name ∧ r ∈ projectsListAll pages) := by
  intro pages name
  refine ⟨?_, ?_, ?_⟩
  · intro l₁ p l₂ hsplit hp hnone
    rw [get_repo, get_repo_scan_eq, hsplit, List.find?_append]
    have h1 : l₁.find? (fun q => q.name == name) = none := by
      rw [List.find?_eq_none]
      intro q hq
      simpa using hnone q hq
    have h2 : (p :: l₂).find? (fun q => q.name == name) = some p := by
      rw [List.find?_cons]
      have hb : (p.name == name) = true := by simpa using hp
      rw [hb]
    rw [h1, h2]
    rfl
  · intro hall
    rw [get_repo, get_repo_scan_eq, List.find?_eq_none]
    intro q hq
    simpa using hall q hq
  · intro r hr
    rw [get_repo, get_repo_scan_eq] at hr
    refine ⟨by simpa using List.find?_some hr, List.mem_of_find?_eq_some hr⟩

/-- Witness for C6: three pages with the target alone on the last page. -/
theorem locator_exhaustive_witness :
    get_repo [[⟨"a"⟩], [⟨"b"⟩], [⟨"svc-a"⟩]] "svc-a" = some ⟨"svc-a"⟩ :=
  (locator_exhaustive [[⟨"a"⟩], [⟨"b"⟩], [⟨"svc-a"⟩]] "svc-a").1
    [⟨"a"⟩, ⟨"b"⟩] ⟨"svc-a"⟩ [] (by decide) rfl (by decide)

/-- C8 counterexample: with `added_lines == 0 and removed_lines == 0` the
builder returns the fixed no-differences message and ignores the diff
entirely, so a diff longer than the threshold yields neither truncation nor
a truncation notice. -/
theorem helm_diff_no_notice_cex :
    3 < ("abcdef".toList).length ∧
    containsSub
      (create_helm_diff_comment 0 0 ("abcdef".toList) ("b".toList)
        ("p".toList) ("j".toList) 3)
      ("truncated".toList) = false := by
  decide

/-- C8 amended: unless both line counts are zero (in which case the fixed
no-differences message is returned regardless of the content), a diff
longer than the threshold is cut to exactly the threshold and followed by
the truncation notice with the artifact pointer, the body length being the
threshold plus the overhead of the template, the interpolated header
fields and the decimal rendering of the original length; a diff at or
below the threshold is embedded unmodified. -/
theorem helm_diff_truncation :
    ∀ (added removed : Nat) (diff branch pipe job : Str) (maxSz : Nat),
    ¬(added = 0 ∧ removed = 0) →
    ((maxSz < diff.length →
       (∃ pre post,
         create_helm_diff_comment added removed diff branch pipe job maxSz =
           pre ++ (diff.take maxSz ++ truncNoteA ++
             (toString diff.length).toList ++ truncNoteB) ++ post) ∧
       containsSub
         (create_helm_diff_comment added removed diff branch pipe job maxSz)
         ("(diff truncated - total size:".toList) = true ∧
       (create_helm_diff_comment added removed diff branch pipe job
           maxSz).length =
         maxSz + helmOverhead added removed branch pipe job diff.length) ∧
     (diff.length ≤ maxSz →
       ∃ pre post,
         create_helm_diff_comment added removed diff branch pipe job maxSz =
           pre ++ diff ++ post)) := by
  intro added removed diff branch pipe job maxSz h0
  have hb : create_helm_diff_comment added removed diff branch pipe job maxSz =
      helmHeadA ++ branch ++ helmHeadB ++ (toString added).toList ++
        helmHeadC ++ (toString removed).toList ++ helmHeadD ++
        helmDiffDisplay diff maxSz ++ helmFootA ++ pipe ++ helmFootB ++
        helmArtifactUrl pipe job ++ helmFootC := by
    rw [create_helm_diff_comment, if_neg h0]
  constructor
  · intro hlen
    have hdisp : helmDiffDisplay diff maxSz =
        diff.take maxSz ++ truncNoteA ++ (toString diff.length).toList ++
          truncNoteB := by
      rw [helmDiffDisplay, if_pos hlen]
    refine ⟨?_, ?_, ?_⟩
    · refine ⟨helmHeadA ++ branch ++ helmHeadB ++ (toString added).toList ++
        helmHeadC ++ (toString removed).toList ++ helmHeadD,
        helmFootA ++ pipe ++ helmFootB ++ helmArtifactUrl pipe job ++
          helmFootC, ?_⟩
      simp [hb, hdisp, List.append_assoc]
    · have hnote : truncNoteA =
          "\n\n... ".toList ++ "(diff truncated - total size:".toList ++
            " ".toList := by decide
      refine (containsSub_iff _ _).mpr
        ⟨helmHeadA ++ branch ++ helmHeadB ++ (toString added).toList ++
          helmHeadC ++ (toString removed).toList ++ helmHeadD ++
          diff.take maxSz ++ "\n\n... ".toList,
         " ".toList ++ (toString diff.length).toList ++ truncNoteB ++
          helmFootA ++ pipe ++ helmFootB ++ helmArtifactUrl pipe job ++
          helmFootC, ?_⟩
      simp [hb, hdisp, hnote, List.append_assoc]
    · have htake : (diff.take maxSz).length = maxSz := by
        rw [List.length_take]
        omega
      simp [hb, hdisp, helmOverhead, List.length_append, htake]
      omega
  · intro hle
    have hdisp : helmDiffDisplay diff maxSz = diff := by
      rw [helmDiffDisplay, if_neg (Nat.not_lt.mpr hle)]
    refine ⟨helmHeadA ++ branch ++ helmHeadB ++ (toString added).toList ++
      helmHeadC ++ (toString removed).toList ++ helmHeadD,
      helmFootA ++ pipe ++ helmFootB ++ helmArtifactUrl pipe job ++
        helmFootC, ?_⟩
    simp [hb, hdisp, List.append_assoc]

/-- Witness for the amended C8 theorem: a six-character diff against a
three-character threshold carries the truncation notice. -/
theorem helm_diff_truncation_witness :
    containsSub
      (create_helm_diff_comment 1 0 ("abcdef".toList) ("b".toList)
        ("p".toList) ("j".toList) 3)
      ("(diff truncated - total size:".toList) = true :=
  ((helm_diff_truncation 1 0 ("abcdef".toList) ("b".toList) ("p".toList)
      ("j".toList) 3 (by decide)).1 (by decide)).2.1

/-- C7 counterexample: an HTTP failure while listing the existing notes is
caught and downgraded to "no existing note", after which the fallback
creation succeeds and the process exits 0 — even though the thread already
held a managed note.  An HTTP-layer error therefore does not always
produce a non-zero exit. -/
theorem exit_code_listing_error_cex :
    main_exit ⟨some "https://gl", none, some "42", some "branch", some "tkn"⟩
      ⟨[7], false, true, false, false⟩
      ⟨[⟨1, marker ("helm-chart-diff".toList) ++ ('\n' :: "old".toList)⟩], 2⟩
      ("new".toList) ("helm-chart-diff".toList) = 0 ∧
    (⟨[7], false, true, false, false⟩ : World).listNotesFails = true := by
  decide

/-- C7 amended: on the identifier path the process exits 0 exactly when the
environment check passes, an open merge request is found, and the final
write succeeds — a note update when the marker scan found a note with a
nonzero id, a note creation otherwise (the dispatch is Python's
`if existing_note_id:` truthiness test, so a found id of 0 routes to
creation like a missing note); missing env vars, no open MR, and HTTP
errors during that final creation or update all exit 1, while an HTTP
error during note listing is only a warning that routes the run to
creation. -/
theorem exit_code_iff :
    ∀ (e : EnvVars) (w : World) (st : NotesState) (c idf : Str),
    main_exit e w st c idf = 0 ↔
      (commenter_ok e = true ∧ w.mrLookupFails = false ∧ w.mrs ≠ [] ∧
        (match find_existing_note w st idf with
         | some nid =>
           if nid = 0 then w.createFails = false else w.updateFails = false
         | none => w.createFails = false)) := by
  intro e w st c idf
  obtain ⟨mrs, mlf, lnf, cf, uf⟩ := w
  by_cases hok : commenter_ok e = false
  · simp [main_exit, hok]
  · have hok' : commenter_ok e = true := by
      cases h : commenter_ok e
      · exact absurd h hok
      · rfl
    cases hnf : st.notes.find? (hasMarker idf) with
    | none =>
      cases mlf <;> cases mrs <;> cases lnf <;> cases cf <;> cases uf <;>
        simp [main_exit, hok', update_or_create_comment, find_existing_note,
          get_mr_iid, post_comment, update_note, hnf]
    | some n =>
      by_cases hz : n.id = 0 <;>
        cases mlf <;> cases mrs <;> cases lnf <;> cases cf <;> cases uf <;>
          simp [main_exit, hok', update_or_create_comment, find_existing_note,
            get_mr_iid, post_comment, update_note, hnf, hz]

/-- C2 counterexample: a thread already holding two notes with the marker
keeps two of them after two upserts — the update targets only the first
match — so "every thread ends with exactly one managed note" fails. -/
theorem upsert_two_markers_cex :
    ((update_or_create_comment ⟨[7], false, false, false, false⟩
        (update_or_create_comment ⟨[7], false, false, false, false⟩
          ⟨[⟨1, marker ("id-A".toList)⟩, ⟨2, marker ("id-A".toList)⟩], 3⟩
          ("body1".toList) ("id-A".toList)).2
        ("body2".toList) ("id-A".toList)).2.notes.filter
      (hasMarker ("id-A".toList))).length = 2 := by
  decide

/-- The tagged body always carries its own marker. -/
theorem hasMarker_tagged (idf b : Str) (nid : Nat) :
    hasMarker idf ⟨nid, marker idf ++ ('\n' :: b)⟩ = true := by
  simpa [hasMarker] using containsSub_of_take (marker idf) ('\n' :: b)

theorem mem_len_le_one {α : Type} {l : List α} {a b : α}
    (h : l.length ≤ 1) (ha : a ∈ l) (hb : b ∈ l) : a = b := by
  match l with
  | [] => cases ha
  | x :: xs =>
    have hx : xs = [] := by
      cases xs with
      | nil => rfl
      | cons y ys => simp at h
    subst hx
    simp at ha hb
    rw [ha, hb]

theorem find?_congr_mem {α : Type} {p q : α → Bool} {l : List α}
    (h : ∀ a ∈ l, p a = q a) : l.find? p = l.find? q := by
  induction l with
  | nil => rfl
  | cons x xs ih =>
    rw [List.find?_cons, List.find?_cons, h x (by simp)]
    cases hq : q x
    · exact ih fun a ha => h a (by simp [ha])
    · rfl

/-- With pairwise-distinct note ids, scanning for a member's id finds that
member. -/
theorem find_id_nodup {l : List Note} {n0 : Note}
    (hd : (l.map Note.id).Nodup) (hm : n0 ∈ l) :
    l.find? (fun n => n.id == n0.id) = some n0 := by
  induction l with
  | nil => cases hm
  | cons x xs ih =>
    rw [List.find?_cons]
    by_cases hx : x.id = n0.id
    · have hxn : x = n0 := by
        apply List.inj_on_of_nodup_map hd (by simp) hm hx
      have hb : (x.id == n0.id) = true := by simpa using hx
      rw [hb, hxn]
    · have hb : (x.id == n0.id) = false := by simpa using hx
      rw [hb]
      have hm' : n0 ∈ xs := by
        rcases List.mem_cons.mp hm with h | h
        · exact absurd (by rw [h]) hx
        · exact h
      have hd' : (xs.map Note.id).Nodup := by
        simp only [List.map_cons, List.nodup_cons] at hd
        exact hd.2
      exact ih hd' hm'

/-- With pairwise-distinct note ids, filtering on a member's id keeps that
member alone. -/
theorem filter_id_nodup {l : List Note} {n0 : Note}
    (hd : (l.map Note.id).Nodup) (hm : n0 ∈ l) :
    l.filter (fun n => n.id == n0.id) = [n0] := by
  induction l with
  | nil => cases hm
  | cons x xs ih =>
    have hd' : (xs.map Note.id).Nodup := by
      simp only [List.map_cons, List.nodup_cons] at hd
      exact hd.2
    by_cases hx : x.id = n0.id
    · have hxn : x = n0 := by
        apply List.inj_on_of_nodup_map hd (by simp) hm hx
      have hnotin : x.id ∉ xs.map Note.id := by
        simp only [List.map_cons, List.nodup_cons] at hd
        exact hd.1
      have hnil : xs.filter (fun n => n.id == n0.id) = [] := by
        rw [List.filter_eq_nil_iff]
        intro t ht hb
        apply hnotin
        have : t.id = n0.id := by simpa using hb
        rw [hxn, ← this]
        exact List.mem_map_of_mem Note.id ht
      rw [List.filter_cons_of_pos (by simpa using hx), hnil, hxn]
    · have hm' : n0 ∈ xs := by
        rcases List.mem_cons.mp hm with h | h
        · exact absurd (by rw [h]) hx
        · exact h
      rw [List.filter_cons_of_neg (by simpa using hx)]
      exact ih hd' hm'

/-- Replacing a body at an id none of the notes carries leaves the thread
unchanged. -/
theorem map_replace_skip {l : List Note} {nid : Nat} {b : Str}
    (h : ∀ n ∈ l, n.id ≠ nid) : l.map (replaceNote nid b) = l := by
  have hcong : ∀ n ∈ l, replaceNote nid b n = id n := by
    intro n hn
    simp [replaceNote, h n hn]
  rw [List.map_congr_left hcong, List.map_id]

/-- C2 amended: on a thread whose notes have pairwise-distinct *nonzero*
ids, fresh nonzero ids for new notes, and at most one note carrying the
marker, running `update_or_create_comment(body1, id)` then
`update_or_create_comment(body2, id)` (with all HTTP calls succeeding and
an open merge request present) succeeds twice and leaves exactly one note
carrying the marker, whose body is the marker line followed by body2.  A
thread pre-seeded with two marker notes keeps both, and a marker note with
id 0 would be falsy under the `if existing_note_id:` dispatch and be
re-created rather than updated. -/
theorem upsert_idempotent :
    ∀ (w : World) (st : NotesState) (body1 body2 idf : Str),
    w.mrLookupFails = false → w.listNotesFails = false →
    w.createFails = false → w.updateFails = false → w.mrs ≠ [] →
    (st.notes.map Note.id).Nodup →
    (∀ n ∈ st.notes, n.id < st.nextId) →
    (∀ n ∈ st.notes, n.id ≠ 0) →
    st.nextId ≠ 0 →
    (st.notes.filter (hasMarker idf)).length ≤ 1 →
    (update_or_create_comment w st body1 idf).1 = true ∧
    (update_or_create_comment w
      (update_or_create_comment w st body1 idf).2 body2 idf).1 = true ∧
    ((update_or_create_comment w
      (update_or_create_comment w st body1 idf).2 body2 idf).2.notes.filter
        (hasMarker idf)).length = 1 ∧
    (∀ n ∈ (update_or_create_comment w
      (update_or_create_comment w st body1 idf).2 body2 idf).2.notes,
      hasMarker idf n = true → n.body = marker idf ++ ('\n' :: body2)) := by
  intro w st body1 body2 idf hmlf hlnf hcf huf hmrs hnodup hfresh hidnz hnxnz hcount
  obtain ⟨m, hiid⟩ : ∃ m, get_mr_iid w = some m := by
    cases hm : w.mrs with
    | nil => exact absurd hm hmrs
    | cons a t => exact ⟨a, by simp [get_mr_iid, hmlf, hm]⟩
  cases hfind : st.notes.find? (hasMarker idf) with
  | none =>
    have hall : ∀ n ∈ st.notes, hasMarker idf n = false := by
      intro n hn
      simpa using List.find?_eq_none.mp hfind n hn
    have hfe1 : find_existing_note w st idf = none := by
      simp [find_existing_note, hiid, hlnf, hfind]
    have hr1 : update_or_create_comment w st body1 idf =
        (true, ⟨st.notes ++ [⟨st.nextId, marker idf ++ ('\n' :: body1)⟩],
          st.nextId + 1⟩) := by
      simp [update_or_create_comment, hfe1, post_comment, hiid, hcf]
    have hfind2 : (st.notes ++
        [(⟨st.nextId, marker idf ++ ('\n' :: body1)⟩ : Note)]).find?
          (hasMarker idf) =
        some ⟨st.nextId, marker idf ++ ('\n' :: body1)⟩ := by
      rw [List.find?_append, hfind]
      simp [List.find?_cons, hasMarker_tagged]
    have hfe2 : find_existing_note w
        ⟨st.notes ++ [⟨st.nextId, marker idf ++ ('\n' :: body1)⟩],
          st.nextId + 1⟩ idf = some st.nextId := by
      simp [find_existing_note, hiid, hlnf, hfind2]
    have hskip : st.notes.map
        (replaceNote st.nextId (marker idf ++ ('\n' :: body2))) = st.notes :=
      map_replace_skip fun n hn => Nat.ne_of_lt (hfresh n hn)
    have hr2 : update_or_create_comment w
        ⟨st.notes ++ [⟨st.nextId, marker idf ++ ('\n' :: body1)⟩],
          st.nextId + 1⟩ body2 idf =
        (true, ⟨st.notes ++ [⟨st.nextId, marker idf ++ ('\n' :: body2)⟩],
          st.nextId + 1⟩) := by
      simp [update_or_create_comment, hfe2, update_note, hiid, huf, hnxnz,
        List.map_append, hskip, replaceNote]
    rw [hr1]
    simp only []
    rw [hr2]
    refine ⟨by trivial, by trivial, ?_, ?_⟩
    · rw [List.filter_append]
      have h1 : st.notes.filter (hasMarker idf) = [] := by
        rw [List.filter_eq_nil_iff]
        intro n hn
        simp [hall n hn]
      rw [h1]
      simp [List.filter_cons, hasMarker_tagged]
    · intro n hn hFn
      rcases List.mem_append.mp hn with h | h
      · rw [hall n h] at hFn
        cases hFn
      · have : n = ⟨st.nextId, marker idf ++ ('\n' :: body2)⟩ := by
          simpa using h
        rw [this]
  | some n0 =>
    have hF0 : hasMarker idf n0 = true := List.find?_some hfind
    have hmem : n0 ∈ st.notes := List.mem_of_find?_eq_some hfind
    have huniq : ∀ n ∈ st.notes, hasMarker idf n = true → n = n0 := by
      intro n hn hFn
      exact mem_len_le_one hcount (List.mem_filter.mpr ⟨hn, hFn⟩)
        (List.mem_filter.mpr ⟨hmem, hF0⟩)
    have hfe1 : find_existing_note w st idf = some n0.id := by
      simp [find_existing_note, hiid, hlnf, hfind]
    have hz0 : n0.id ≠ 0 := hidnz n0 hmem
    have hr1 : update_or_create_comment w st body1 idf =
        (true, ⟨st.notes.map
          (replaceNote n0.id (marker idf ++ ('\n' :: body1))), st.nextId⟩) := by
      simp [update_or_create_comment, hfe1, update_note, hiid, huf, hz0]
    have hpoint1 : ∀ n ∈ st.notes,
        hasMarker idf (replaceNote n0.id (marker idf ++ ('\n' :: body1)) n) =
          (n.id == n0.id) := by
      intro n hn
      by_cases h : n.id = n0.id
      · simp only [replaceNote, if_pos h]
        rw [hasMarker_tagged]
        simp [h]
      · simp only [replaceNote, if_neg h]
        have hb : (n.id == n0.id) = false := by simpa using h
        rw [hb]
        cases hFn : hasMarker idf n
        · rfl
        · exact absurd (congrArg Note.id (huniq n hn hFn)) h
    have hfind2 : (st.notes.map
        (replaceNote n0.id (marker idf ++ ('\n' :: body1)))).find?
          (hasMarker idf) =
        some ⟨n0.id, marker idf ++ ('\n' :: body1)⟩ := by
      rw [List.find?_map]
      have hc : st.notes.find?
          (hasMarker idf ∘ replaceNote n0.id (marker idf ++ ('\n' :: body1))) =
          st.notes.find? (fun n => n.id == n0.id) :=
        find?_congr_mem fun a ha => by
          simpa [Function.comp] using hpoint1 a ha
      rw [hc, find_id_nodup hnodup hmem]
      simp [replaceNote]
    have hfe2 : find_existing_note w
        ⟨st.notes.map (replaceNote n0.id (marker idf ++ ('\n' :: body1))),
          st.nextId⟩ idf = some n0.id := by
      simp [find_existing_note, hiid, hlnf, hfind2]
    have hr2 : update_or_create_comment w
        ⟨st.notes.map (replaceNote n0.id (marker idf ++ ('\n' :: body1))),
          st.nextId⟩ body2 idf =
        (true, ⟨(st.notes.map
          (replaceNote n0.id (marker idf ++ ('\n' :: body1)))).map
            (replaceNote n0.id (marker idf ++ ('\n' :: body2))),
          st.nextId⟩) := by
      simp [update_or_create_comment, hfe2, update_note, hiid, huf, hz0]
    have hcomp : (st.notes.map
        (replaceNote n0.id (marker idf ++ ('\n' :: body1)))).map
          (replaceNote n0.id (marker idf ++ ('\n' :: body2))) =
        st.notes.map (replaceNote n0.id (marker idf ++ ('\n' :: body2))) := by
      rw [List.map_map]
      apply List.map_congr_left
      intro n _
      by_cases h : n.id = n0.id <;> simp [Function.comp, replaceNote, h]
    have hpoint2 : ∀ n ∈ st.notes,
        hasMarker idf (replaceNote n0.id (marker idf ++ ('\n' :: body2)) n) =
          (n.id == n0.id) := by
      intro n hn
      by_cases h : n.id = n0.id
      · simp only [replaceNote, if_pos h]
        rw [hasMarker_tagged]
        simp [h]
      · simp only [replaceNote, if_neg h]
        have hb : (n.id == n0.id) = false := by simpa using h
        rw [hb]
        cases hFn : hasMarker idf n
        · rfl
        · exact absurd (congrArg Note.id (huniq n hn hFn)) h
    rw [hr1]
    simp only []
    rw [hr2]
    refine ⟨by trivial, by trivial, ?_, ?_⟩
    · rw [hcomp, List.filter_map]
      have hfc : st.notes.filter
          (hasMarker idf ∘ replaceNote n0.id (marker idf ++ ('\n' :: body2))) =
          st.notes.filter (fun n => n.id == n0.id) :=
        List.filter_congr fun a ha => by
          simpa [Function.comp] using hpoint2 a ha
      rw [hfc, filter_id_nodup hnodup hmem]
      simp
    · rw [hcomp]
      intro n hn hFn
      obtain ⟨a, ha, rfl⟩ := List.mem_map.mp hn
      rw [hpoint2 a ha] at hFn
      have h : a.id = n0.id := by simpa using hFn
      simp [replaceNote, h]

/-- Witness for the amended C2 theorem: a marker-free one-note thread ends
with exactly one managed note after two upserts. -/
theorem upsert_idempotent_witness :
    ((update_or_create_comment ⟨[7], false, false, false, false⟩
        (update_or_create_comment ⟨[7], false, false, false, false⟩
          ⟨[⟨1, ("hello".toList)⟩], 2⟩ ("b1".toList) ("id-A".toList)).2
        ("b2".toList) ("id-A".toList)).2.notes.filter
      (hasMarker ("id-A".toList))).length = 1 :=
  (upsert_idempotent ⟨[7], false, false, false, false⟩
    ⟨[⟨1, ("hello".toList)⟩], 2⟩ ("b1".toList) ("b2".toList) ("id-A".toList)
    rfl rfl rfl rfl (by decide) (by decide) (by decide) (by decide)
    (by decide) (by decide)).2.2.1
